import Mathlib

/-!
Shallow embedding of `tuned_lens/__main__.py`, the command-line dispatcher of
the logit-lens repository, together with proofs about its dispatch behaviour.

The dispatcher `run()` is modelled as a pure function from its inputs (the
`LOCAL_RANK` environment variable, the parsed argument namespace, and oracles
for the Python builtins `int` and `eval` that the code calls out to) to a
trace of observable effects plus a final outcome.  External collaborators
(`dist.init_process_group`, `lens_main`, `print`, `eval`) appear as trace
events; the argument namespace mutation performed inside the sweep loop is
modelled by explicit record updates threaded through the loop.
-/

namespace TunedLensMain

/-- A `pathlib.Path` value, modelled as its list of segments.  The code only
builds paths with the `/` operator (`output_root / f"step{step}"`) and renders
them inside an f-string, so segments and their join are all we need. -/
structure PyPath where
  segments : List String
deriving DecidableEq

/-- The `/` operator of `pathlib.Path`: append one segment. -/
def PyPath.div (p : PyPath) (s : String) : PyPath :=
  ⟨p.segments ++ [s]⟩

/-- `str()` of a `pathlib.Path`: segments joined by a slash. -/
def PyPath.render (p : PyPath) : String :=
  String.intercalate "/" p.segments

/-- The parsed argument namespace produced by `parser.parse_args()`.  The
dispatcher touches only `command` (the subparser dest), `sweep`, `output` and
`revision`; every other parsed option is bundled into the opaque `rest` field
of type `ρ`, which the dispatcher never reads or writes. -/
structure Args (ρ : Type) where
  command : Option String
  sweep : Option String
  output : Option PyPath
  revision : String
  rest : ρ
deriving DecidableEq

/-- Observable effects of one execution of `run()`:
`initProcessGroup` models `dist.init_process_group(backend)`;
`printHelp` models `parser.print_help()`;
`printStmt s toStdout` models `print(s)` executed while `sys.stdout` is intact
(`toStdout = true`) or redirected to `None` by `redirect_stdout(None)`
(`toStdout = false`, the text reaches no stream);
`evalCall e` models the call `eval(e)`;
`lensMain a` models the call `lens_main(a)` with the namespace in state `a`. -/
inductive Event (ρ : Type) where
  | initProcessGroup (backend : String)
  | printHelp
  | printStmt (s : String) (toStdout : Bool)
  | evalCall (e : String)
  | lensMain (a : Args ρ)
deriving DecidableEq

/-- How `run()` terminates: normally, via `exit(code)`, with the `ValueError`
raised by `int(local_rank)` on a non-numeric string, with an exception raised
by `eval`, or with the `AssertionError` of `assert output_root is not None`. -/
inductive Outcome where
  | completed
  | exited (code : Nat)
  | valueError (s : String)
  | evalExc (msg : String)
  | assertionError
deriving DecidableEq

/-- The apostrophe character, as used by the f-string
`f"Running for step {step}, saving to '{step_output}'..."`. -/
def quoteChar : String := String.singleton (Char.ofNat 39)

/-- The namespace as the sweep loop body leaves it for `step`:
`args.output = output_root / f"step{step}"; args.revision = f"step{step}"`.
This is exactly the namespace passed to `lens_main` at that step. -/
def stepArgs {ρ : Type} (args : Args ρ) (output_root : PyPath) (step : Int) :
    Args ρ :=
  { args with
    output := some (PyPath.div output_root ("step" ++ toString step))
    revision := "step" ++ toString step }

/-- The `for step in ckpt_range:` loop.  Each iteration prints a progress
line, mutates `output` and `revision` on the shared namespace (modelled by
threading the updated record into the rest of the loop) and calls
`lens_main`.  `suppress` records whether stdout is redirected to `None`. -/
def sweepLoop {ρ : Type} (suppress : Bool) (output_root : PyPath)
    (args : Args ρ) : List Int → List (Event ρ)
  | [] => []
  | step :: rest =>
    let step_output := PyPath.div output_root ("step" ++ toString step)
    let args1 := stepArgs args output_root step
    Event.printStmt
        ("Running for step " ++ toString step ++ ", saving to "
          ++ quoteChar ++ PyPath.render step_output ++ quoteChar ++ "...")
        (!suppress)
      :: Event.lensMain args1
      :: sweepLoop suppress output_root args1 rest

/-- The `if args.sweep:` branch taken with truthy sweep string `s`.
`pyEval` is the Python `eval` builtin, as an oracle from the expression
string to either the step list of the resulting range or a raised
exception; the dispatcher hands it the unsanitized f-string
`f"range({args.sweep})"`. -/
def sweepBranch {ρ : Type} (suppress : Bool)
    (pyEval : String → Except String (List Int)) (args : Args ρ)
    (s : String) : List (Event ρ) × Outcome :=
  let expr := "range(" ++ s ++ ")"
  match pyEval expr with
  | Except.error msg => ([Event.evalCall expr], Outcome.evalExc msg)
  | Except.ok ckpt_range =>
    match args.output with
    | none => ([Event.evalCall expr], Outcome.assertionError)
    | some output_root =>
      (Event.evalCall expr
        :: Event.printStmt
             ("Running sweep over " ++ toString ckpt_range.length
               ++ " checkpoints.")
             (!suppress)
        :: sweepLoop suppress output_root args ckpt_range,
       Outcome.completed)

/-- The body of the `with nullcontext() if not local_rank else
redirect_stdout(None):` block: re-parse (modelled as the same namespace),
print help and `exit(1)` when no subcommand was given, run the sweep when
`args.sweep` is truthy (a non-`None`, non-empty string), and otherwise call
`lens_main(args)` once. -/
def runBlock {ρ : Type} (suppress : Bool)
    (pyEval : String → Except String (List Int)) (args : Args ρ) :
    List (Event ρ) × Outcome :=
  match args.command with
  | none => ([Event.printHelp], Outcome.exited 1)
  | some _ =>
    match args.sweep with
    | some s =>
      if s ≠ "" then sweepBranch suppress pyEval args s
      else ([Event.lensMain args], Outcome.completed)
    | none => ([Event.lensMain args], Outcome.completed)

/-- The dispatcher `run()` after argument parsing.  `env_LOCAL_RANK` is
`os.environ.get("LOCAL_RANK")`; `pyInt` is the Python `int` builtin as an
oracle (`none` models a raised `ValueError`).  When `LOCAL_RANK` is set the
code first calls `dist.init_process_group("nccl")` and then converts the
value with `int`; the with-block then redirects stdout to `None` exactly
when `not local_rank` is false, i.e. when the converted rank is nonzero. -/
def run {ρ : Type} (env_LOCAL_RANK : Option String)
    (pyInt : String → Option Int)
    (pyEval : String → Except String (List Int)) (args : Args ρ) :
    List (Event ρ) × Outcome :=
  match env_LOCAL_RANK with
  | none => runBlock false pyEval args
  | some v =>
    match pyInt v with
    | none => ([Event.initProcessGroup "nccl"], Outcome.valueError v)
    | some k =>
      let r := runBlock (k ≠ 0) pyEval args
      (Event.initProcessGroup "nccl" :: r.1, r.2)

/-- The subsequence of `lens_main` invocations in a trace, in order, each
with the namespace it received. -/
def lensCalls {ρ : Type} (t : List (Event ρ)) : List (Args ρ) :=
  t.filterMap fun e =>
    match e with
    | Event.lensMain a => some a
    | _ => none

/-- Whether the with-block redirects stdout to `None`: true exactly when
`LOCAL_RANK` is set and converts to a nonzero integer. -/
def stdoutSuppressed (env_LOCAL_RANK : Option String)
    (pyInt : String → Option Int) : Bool :=
  match env_LOCAL_RANK with
  | none => false
  | some v =>
    match pyInt v with
    | none => false
    | some k => k ≠ 0

/-- The events `run` emits before entering the with-block. -/
def initPrefix (ρ : Type) (env_LOCAL_RANK : Option String) : List (Event ρ) :=
  match env_LOCAL_RANK with
  | none => []
  | some _ => [Event.initProcessGroup "nccl"]

/-- The preamble of `run` does not raise: `LOCAL_RANK` is either unset or a
string that `int` accepts. -/
def envIntOk (env_LOCAL_RANK : Option String)
    (pyInt : String → Option Int) : Prop :=
  ∀ v, env_LOCAL_RANK = some v → (pyInt v).isSome

/-! ### The shared CLI option list and the three subcommand parsers -/

/-- A Python default value appearing in `shared_cli_args`. -/
inductive PyVal where
  | str (s : String)
  | int (n : Int)
  | strTuple (xs : List String)
  | noneV
deriving DecidableEq

/-- The `options` dict of one argparse argument.  The `type` entry is the
Python type annotation drawn from `get_type_hints(SharedCliArgs)`, rendered
as its source text.  Help strings are presentation-only and are omitted
from the embedding. -/
structure ArgOptions where
  type : Option String := none
  default : Option PyVal := none
  nargs : Option String := none
  action : Option String := none
  choices : Option (List String) := none
deriving DecidableEq

/-- An argparse argument, as in the `Arg` TypedDict of the source. -/
structure Arg where
  name_or_flags : List String
  options : ArgOptions
deriving DecidableEq

/-- The `shared_cli_args` list: arguments shared by train and eval. -/
def shared_cli_args : List Arg := [
  { name_or_flags := ["model_name"],
    options := { type := some "str" } },
  { name_or_flags := ["dataset"],
    options := { type := some "Optional[List[str]]",
                 default := some (PyVal.strTuple ["the_pile", "all"]),
                 nargs := some "*" } },
  { name_or_flags := ["--cpu-offload"],
    options := { type := some "bool", action := some "store_true" } },
  { name_or_flags := ["--fsdp"],
    options := { type := some "bool", action := some "store_true" } },
  { name_or_flags := ["--loss"],
    options := { type := some "str", default := some (PyVal.str "kl"),
                 choices := some ["ce", "kl"] } },
  { name_or_flags := ["--no-cache"],
    options := { type := some "bool", action := some "store_true" } },
  { name_or_flags := ["--per-gpu-batch-size"],
    options := { type := some "int", default := some (PyVal.int 1) } },
  { name_or_flags := ["--random-model"],
    options := { type := some "bool", action := some "store_true" } },
  { name_or_flags := ["--residual-stats"],
    options := { type := some "bool", action := some "store_true" } },
  { name_or_flags := ["--revision"],
    options := { type := some "str", default := some (PyVal.str "main") } },
  { name_or_flags := ["--seed"],
    options := { type := some "int", default := some (PyVal.int 42) } },
  { name_or_flags := ["--slow-tokenizer"],
    options := { type := some "bool", action := some "store_true" } },
  { name_or_flags := ["--split"],
    options := { type := some "str",
                 default := some (PyVal.str "validation") } },
  { name_or_flags := ["--sweep"],
    options := { type := some "str" } },
  { name_or_flags := ["--task"],
    options := { type := some "List[str]", nargs := some "+" } },
  { name_or_flags := ["--text-column"],
    options := { type := some "str", default := some (PyVal.str "text") } },
  { name_or_flags := ["--tokenizer"],
    options := { type := some "str" } },
  { name_or_flags := ["--tokenizer-type"],
    options := { type := some "str" } },
  { name_or_flags := ["--token-shift"],
    options := { type := some "int", default := some PyVal.noneV } }
]

/-- The parent parser built by `run`: one `add_argument` per element of
`shared_cli_args`, in order. -/
def parentParserArgs : List Arg := shared_cli_args

/-- The argument list of the `train` subparser (source: `train_parser`):
built with `parents=[parent_parser]`, so it holds all parent arguments,
then each element of `train_cli_args` (imported from the unseen
`scripts.train_loop`, hence a parameter here). -/
def trainParserArgs (train_cli_args : List Arg) : List Arg :=
  parentParserArgs ++ train_cli_args

/-- The argument list of the `downstream` subparser (source:
`downstream_parser`), with `downstream_cli_args` a parameter. -/
def downstreamParserArgs (downstream_cli_args : List Arg) : List Arg :=
  parentParserArgs ++ downstream_cli_args

/-- The argument list of the `eval` subparser (source: `eval_parser`),
with `eval_cli_args` a parameter. -/
def evalParserArgs (eval_cli_args : List Arg) : List Arg :=
  parentParserArgs ++ eval_cli_args

/-! ### Concrete sample inputs, used by witnesses -/

/-- A sample `int` oracle: decimal parsing on the few strings the sample
runs use, raising on everything else. -/
def pyIntSample : String → Option Int := fun s =>
  if s = "0" then some 0 else if s = "1" then some 1 else none

/-- A sample `eval` oracle: knows the ranges `range(0)` and `range(2)` and
raises on everything else. -/
def pyEvalSample : String → Except String (List Int) := fun e =>
  if e = "range(0)" then Except.ok []
  else if e = "range(2)" then Except.ok [0, 1]
  else Except.error ("invalid range: " ++ e)

/-- A sample parsed namespace: `train` subcommand, sweep `"2"`, output
directory `out`. -/
def argsSample : Args Unit :=
  { command := some "train", sweep := some "2",
    output := some ⟨["out"]⟩, revision := "main", rest := () }

/-! ### Helper lemmas -/

/-- Re-running the loop body on an already-updated namespace overwrites the
same two fields: updating twice equals updating once with the later step. -/
theorem stepArgs_stepArgs {ρ : Type} (args : Args ρ) (root : PyPath)
    (s t : Int) : stepArgs (stepArgs args root s) root t = stepArgs args root t :=
  rfl

/-- The `lens_main` calls made by the sweep loop are exactly one per step,
in order, with the namespace updated for that step. -/
theorem lensCalls_sweepLoop {ρ : Type} (sup : Bool) (root : PyPath)
    (args : Args ρ) (l : List Int) :
    lensCalls (sweepLoop sup root args l) = l.map (stepArgs args root) := by
  induction l generalizing args with
  | nil => rfl
  | cons step rest ih =>
    simp only [sweepLoop, lensCalls, List.filterMap_cons]
    have h := ih (stepArgs args root step)
    simp only [lensCalls] at h
    rw [h]
    have hf : stepArgs (stepArgs args root step) root = stepArgs args root :=
      funext fun t => stepArgs_stepArgs args root step t
    rw [hf, List.map_cons]

/-- Every event the sweep loop emits is a print (with the block's stdout
state) or a `lens_main` call. -/
theorem sweepLoop_mem {ρ : Type} (sup : Bool) (root : PyPath)
    (args : Args ρ) (l : List Int) (e : Event ρ)
    (h : e ∈ sweepLoop sup root args l) :
    (∃ s, e = Event.printStmt s (!sup)) ∨ ∃ a, e = Event.lensMain a := by
  induction l generalizing args with
  | nil => simp [sweepLoop] at h
  | cons step rest ih =>
    simp only [sweepLoop] at h
    rcases List.mem_cons.mp h with h1 | h2
    · exact Or.inl ⟨_, h1⟩
    · rcases List.mem_cons.mp h2 with h3 | h4
      · exact Or.inr ⟨_, h3⟩
      · exact ih _ h4

/-- Every event the with-block emits is the help text, a print with the
block's stdout state, an `eval` call, or a `lens_main` call. -/
theorem runBlock_mem {ρ : Type} (sup : Bool)
    (pyEval : String → Except String (List Int)) (args : Args ρ)
    (e : Event ρ) (h : e ∈ (runBlock sup pyEval args).1) :
    e = Event.printHelp ∨ (∃ s, e = Event.printStmt s (!sup)) ∨
      (∃ x, e = Event.evalCall x) ∨ ∃ a, e = Event.lensMain a := by
  rcases hc : args.command with _ | c <;>
    simp only [runBlock, hc] at h
  · left; simpa using h
  · rcases hs : args.sweep with _ | sw <;> simp only [hs] at h
    · right; right; right; exact ⟨args, by simpa using h⟩
    · by_cases hne : sw ≠ ""
      · rw [if_pos hne] at h
        unfold sweepBranch at h
        rcases he : pyEval ("range(" ++ sw ++ ")") with msg | r <;>
          simp only [he] at h
        · right; right; left; exact ⟨_, by simpa using h⟩
        · rcases ho : args.output with _ | root <;> rw [ho] at h
          · right; right; left; exact ⟨_, by simpa using h⟩
          · rcases List.mem_cons.mp h with h1 | h2
            · right; right; left; exact ⟨_, h1⟩
            · rcases List.mem_cons.mp h2 with h3 | h4
              · right; left; exact ⟨_, h3⟩
              · right
                rcases sweepLoop_mem sup root args r e h4 with h5 | h5
                · left; exact h5
                · right; right; exact h5
      · rw [if_neg hne] at h
        right; right; right; exact ⟨args, by simpa using h⟩

/-- Any print that the with-block performs carries the block's stdout
state. -/
theorem runBlock_printStmt {ρ : Type} (sup : Bool)
    (pyEval : String → Except String (List Int)) (args : Args ρ)
    (s : String) (b : Bool)
    (h : Event.printStmt s b ∈ (runBlock sup pyEval args).1) : b = !sup := by
  rcases runBlock_mem sup pyEval args _ h with h1 | h1 | h1 | h1
  · exact absurd h1 (by simp)
  · rcases h1 with ⟨s2, hs2⟩
    injection hs2 with _ hb
  · rcases h1 with ⟨x, hx⟩; exact absurd hx (by simp)
  · rcases h1 with ⟨a, ha⟩; exact absurd ha (by simp)

/-- The with-block never initializes a process group. -/
theorem runBlock_no_init {ρ : Type} (sup : Bool)
    (pyEval : String → Except String (List Int)) (args : Args ρ)
    (bk : String) :
    Event.initProcessGroup bk ∉ (runBlock sup pyEval args).1 := by
  intro h
  rcases runBlock_mem sup pyEval args _ h with h1 | h1 | h1 | h1
  · exact absurd h1 (by simp)
  · rcases h1 with ⟨s2, hs2⟩; exact absurd hs2 (by simp)
  · rcases h1 with ⟨x, hx⟩; exact absurd hx (by simp)
  · rcases h1 with ⟨a, ha⟩; exact absurd ha (by simp)

/-- When the preamble does not raise, `run` is the init prefix followed by
the with-block, with stdout redirected according to the converted rank. -/
theorem run_eq_block {ρ : Type} (env : Option String)
    (pyInt : String → Option Int)
    (pyEval : String → Except String (List Int)) (args : Args ρ)
    (h : envIntOk env pyInt) :
    run env pyInt pyEval args =
      (initPrefix ρ env ++
        (runBlock (stdoutSuppressed env pyInt) pyEval args).1,
       (runBlock (stdoutSuppressed env pyInt) pyEval args).2) := by
  rcases henv : env with _ | v
  · rfl
  · have hv := h v henv
    rcases hk : pyInt v with _ | k
    · rw [hk] at hv; simp at hv
    · simp only [run, initPrefix, stdoutSuppressed, hk]
      rfl

/-- `lensCalls` distributes over list append. -/
theorem lensCalls_append {ρ : Type} (t1 t2 : List (Event ρ)) :
    lensCalls (t1 ++ t2) = lensCalls t1 ++ lensCalls t2 :=
  List.filterMap_append t1 t2 _

/-- The init prefix contains no `lens_main` call. -/
theorem lensCalls_initPrefix (ρ : Type) (env : Option String) :
    lensCalls (initPrefix ρ env) = [] := by
  rcases env with _ | v <;> rfl

/-- On the happy sweep path, the `lens_main` calls of a whole run are one
per step of the evaluated range, with only `output` and `revision`
rewritten. -/
theorem lensCalls_run_sweep {ρ : Type} (env : Option String)
    (pyInt : String → Option Int)
    (pyEval : String → Except String (List Int)) (args : Args ρ)
    (c s : String) (r : List Int) (root : PyPath)
    (h : envIntOk env pyInt) (hc : args.command = some c)
    (hs : args.sweep = some s) (hne : s ≠ "")
    (he : pyEval ("range(" ++ s ++ ")") = Except.ok r)
    (ho : args.output = some root) :
    lensCalls (run env pyInt pyEval args).1 = r.map (stepArgs args root) := by
  rw [run_eq_block env pyInt pyEval args h]
  simp only [lensCalls_append, lensCalls_initPrefix, List.nil_append]
  simp only [runBlock, hc, hs]
  rw [if_pos hne]
  unfold sweepBranch
  simp only [he, ho]
  simp only [lensCalls, List.filterMap_cons]
  exact lensCalls_sweepLoop _ root args r

/-- The trace of a non-raising run: init prefix, then the block's trace. -/
theorem run_fst {ρ : Type} (env : Option String)
    (pyInt : String → Option Int)
    (pyEval : String → Except String (List Int)) (args : Args ρ)
    (h : envIntOk env pyInt) :
    (run env pyInt pyEval args).1 =
      initPrefix ρ env ++
        (runBlock (stdoutSuppressed env pyInt) pyEval args).1 := by
  rw [run_eq_block env pyInt pyEval args h]

/-- The outcome of a non-raising run is the block's outcome. -/
theorem run_snd {ρ : Type} (env : Option String)
    (pyInt : String → Option Int)
    (pyEval : String → Except String (List Int)) (args : Args ρ)
    (h : envIntOk env pyInt) :
    (run env pyInt pyEval args).2 =
      (runBlock (stdoutSuppressed env pyInt) pyEval args).2 := by
  rw [run_eq_block env pyInt pyEval args h]

/-- With a subcommand and a truthy sweep string, the block is the sweep
branch. -/
theorem runBlock_sweep_eq {ρ : Type} (sup : Bool)
    (pyEval : String → Except String (List Int)) (args : Args ρ)
    (c s : String) (hc : args.command = some c) (hs : args.sweep = some s)
    (hne : s ≠ "") :
    runBlock sup pyEval args = sweepBranch sup pyEval args s := by
  simp only [runBlock, hc, hs]
  rw [if_pos hne]

/-- With a subcommand and a falsy sweep (absent or the empty string), the
block is a single `lens_main` call. -/
theorem runBlock_nosweep_eq {ρ : Type} (sup : Bool)
    (pyEval : String → Except String (List Int)) (args : Args ρ)
    (c : String) (hc : args.command = some c)
    (hs : args.sweep = none ∨ args.sweep = some "") :
    runBlock sup pyEval args = ([Event.lensMain args], Outcome.completed) := by
  rcases hs with hs | hs
  · simp only [runBlock, hc, hs]
  · simp only [runBlock, hc, hs]
    rw [if_neg (by simp)]

/-! ### Claim theorems -/

/-- C1: when the parsed `--sweep` option is a non-empty string and the run
reaches the sweep (a subcommand was given, `int(LOCAL_RANK)` and the range
evaluation succeed, and an output directory was parsed), the dispatcher
invokes `lens_main` once per step of the checkpoint range, in the range's
order, and before each invocation sets `args.output` to
`output_root / ("step" ++ step)` and `args.revision` to `"step" ++ step`. -/
theorem sweep_invokes_lens_main_per_step {ρ : Type} (env : Option String)
    (pyInt : String → Option Int)
    (pyEval : String → Except String (List Int)) (args : Args ρ)
    (c s : String) (r : List Int) (root : PyPath)
    (h : envIntOk env pyInt) (hc : args.command = some c)
    (hs : args.sweep = some s) (hne : s ≠ "")
    (he : pyEval ("range(" ++ s ++ ")") = Except.ok r)
    (ho : args.output = some root) :
    lensCalls (run env pyInt pyEval args).1 = r.map (stepArgs args root) :=
  lensCalls_run_sweep env pyInt pyEval args c s r root h hc hs hne he ho

/-- C2: console output in the dispatch block reaches stdout only on rank 0.
Every print the run performs carries the block's stdout state, which is
`suppressed` exactly when `LOCAL_RANK` is set and converts to a nonzero
integer, and is left unchanged when `LOCAL_RANK` is unset. -/
theorem rank_zero_only_console_output {ρ : Type} (env : Option String)
    (pyInt : String → Option Int)
    (pyEval : String → Except String (List Int)) (args : Args ρ) :
    (∀ s b, Event.printStmt s b ∈ (run env pyInt pyEval args).1 →
        b = !(stdoutSuppressed env pyInt))
    ∧ (env = none → stdoutSuppressed env pyInt = false)
    ∧ (∀ v k, env = some v → pyInt v = some k →
        (stdoutSuppressed env pyInt = true ↔ k ≠ 0)) := by
  refine ⟨?_, ?_, ?_⟩
  · intro s b hmem
    rcases henv : env with _ | v
    · subst henv
      exact runBlock_printStmt false pyEval args s b hmem
    · subst henv
      rcases hk : pyInt v with _ | k
      · simp only [run, hk] at hmem
        simp at hmem
      · simp only [run, hk] at hmem
        rcases List.mem_cons.mp hmem with h1 | h2
        · exact absurd h1 (by simp)
        · rw [runBlock_printStmt _ pyEval args s b h2]
          simp [stdoutSuppressed, hk]
  · intro henv; subst henv; rfl
  · intro v k henv hk
    subst henv
    simp [stdoutSuppressed, hk]

/-- C3: `dist.init_process_group` is called if and only if `LOCAL_RANK` is
set, always with the `"nccl"` backend; when `LOCAL_RANK` is unset the run is
exactly the single-process block; when it is set, the value is handed to
`int` — a failed conversion raises its `ValueError`, and a successful one
yields the rank used by the rest of the run. -/
theorem init_process_group_iff_local_rank {ρ : Type} (env : Option String)
    (pyInt : String → Option Int)
    (pyEval : String → Except String (List Int)) (args : Args ρ) :
    (∀ bk, Event.initProcessGroup bk ∈ (run env pyInt pyEval args).1 ↔
        (bk = "nccl" ∧ env ≠ none))
    ∧ (env = none → run env pyInt pyEval args = runBlock false pyEval args)
    ∧ (∀ v, env = some v → pyInt v = none →
        run env pyInt pyEval args =
          ([Event.initProcessGroup "nccl"], Outcome.valueError v))
    ∧ (∀ v k, env = some v → pyInt v = some k →
        run env pyInt pyEval args =
          (Event.initProcessGroup "nccl" ::
             (runBlock (k ≠ 0) pyEval args).1,
           (runBlock (k ≠ 0) pyEval args).2)) := by
  refine ⟨?_, ?_, ?_, ?_⟩
  · intro bk
    constructor
    · intro hmem
      rcases henv : env with _ | v
      · subst henv
        exact absurd hmem (runBlock_no_init false pyEval args bk)
      · subst henv
        rcases hk : pyInt v with _ | k
        · simp only [run, hk] at hmem
          refine ⟨?_, by simp⟩
          simpa using hmem
        · simp only [run, hk] at hmem
          rcases List.mem_cons.mp hmem with h1 | h2
          · injection h1 with hbk
            exact ⟨hbk, by simp⟩
          · exact absurd h2 (runBlock_no_init _ pyEval args bk)
    · rintro ⟨hbk, hne⟩
      subst hbk
      rcases henv : env with _ | v
      · exact absurd henv hne
      · subst henv
        rcases hk : pyInt v with _ | k <;> simp [run, hk]
  · intro henv; subst henv; rfl
  · intro v henv hk
    subst henv
    simp [run, hk]
  · intro v k henv hk
    subst henv
    simp only [run, hk]

/-- C4: every option of `shared_cli_args` is registered on each of the
`train`, `downstream` and `eval` subparsers, whatever their own extra
argument lists are: each subparser is built from the same parent parser
holding all shared options. -/
theorem shared_options_registered_on_all_subcommands
    (train_cli_args downstream_cli_args eval_cli_args : List Arg) :
    ∀ a ∈ shared_cli_args,
      a ∈ trainParserArgs train_cli_args ∧
      a ∈ downstreamParserArgs downstream_cli_args ∧
      a ∈ evalParserArgs eval_cli_args :=
  fun _ ha =>
    ⟨List.mem_append_left _ ha, List.mem_append_left _ ha,
     List.mem_append_left _ ha⟩

/-- The namespace of the C5 counterexample: the `train` subcommand with the
truthy sweep string `"0"`, whose range `range(0)` is empty. -/
def argsSweepZero : Args Unit := { argsSample with sweep := some "0" }

/-- C5 counterexample: a run with a subcommand given in which `lens_main` is
never called — the sweep string `"0"` is truthy but `range(0)` is empty, so
the loop body never executes. -/
theorem lens_main_not_called_on_empty_sweep_cex :
    argsSweepZero.command = some "train" ∧
    lensCalls (run none pyIntSample pyEvalSample argsSweepZero).1 = [] :=
  ⟨rfl, rfl⟩

/-- C5 (amended): when a subcommand is given, external work is reached only
through `lens_main`: it is called exactly once when `--sweep` is falsy
(absent or empty), once per step of the checkpoint range when sweeping — in
particular zero times when the range is empty — and every effect of the run
other than the `lens_main` calls is process-group initialization, console
output, or the `eval` call itself. -/
theorem lens_main_sole_entry_point_amended {ρ : Type} (env : Option String)
    (pyInt : String → Option Int)
    (pyEval : String → Except String (List Int)) (args : Args ρ)
    (c : String) (h : envIntOk env pyInt) (hc : args.command = some c) :
    (args.sweep = none → lensCalls (run env pyInt pyEval args).1 = [args])
    ∧ (args.sweep = some "" →
        lensCalls (run env pyInt pyEval args).1 = [args])
    ∧ (∀ s r root, args.sweep = some s → s ≠ "" →
        pyEval ("range(" ++ s ++ ")") = Except.ok r →
        args.output = some root →
        lensCalls (run env pyInt pyEval args).1 = r.map (stepArgs args root))
    ∧ (∀ e ∈ (run env pyInt pyEval args).1,
        e = Event.initProcessGroup "nccl" ∨ e = Event.printHelp ∨
        (∃ s b, e = Event.printStmt s b) ∨ (∃ x, e = Event.evalCall x) ∨
        ∃ a, e = Event.lensMain a) := by
  refine ⟨?_, ?_, ?_, ?_⟩
  · intro hs
    rw [run_fst env pyInt pyEval args h, lensCalls_append,
      lensCalls_initPrefix, List.nil_append,
      runBlock_nosweep_eq _ pyEval args c hc (Or.inl hs)]
    rfl
  · intro hs
    rw [run_fst env pyInt pyEval args h, lensCalls_append,
      lensCalls_initPrefix, List.nil_append,
      runBlock_nosweep_eq _ pyEval args c hc (Or.inr hs)]
    rfl
  · intro s r root hs hne he ho
    exact lensCalls_run_sweep env pyInt pyEval args c s r root h hc hs hne he ho
  · intro e he
    rw [run_fst env pyInt pyEval args h] at he
    rcases List.mem_append.mp he with h1 | h1
    · left
      rcases henv : env with _ | v <;> rw [henv] at h1
      · simp [initPrefix] at h1
      · simpa [initPrefix] using h1
    · rcases runBlock_mem _ pyEval args e h1 with h2 | h2 | h2 | h2
      · right; left; exact h2
      · rcases h2 with ⟨s2, hs2⟩
        right; right; left; exact ⟨s2, _, hs2⟩
      · right; right; right; left; exact h2
      · right; right; right; right; exact h2

/-- C6: during a sweep, only `output` and `revision` vary between the
namespaces passed to `lens_main`: every other field (the subcommand, the
sweep string, and the whole rest of the namespace) is identical to the
parsed namespace, hence identical across all steps. -/
theorem sweep_varies_only_output_and_revision {ρ : Type} (env : Option String)
    (pyInt : String → Option Int)
    (pyEval : String → Except String (List Int)) (args : Args ρ)
    (c s : String) (r : List Int) (root : PyPath)
    (h : envIntOk env pyInt) (hc : args.command = some c)
    (hs : args.sweep = some s) (hne : s ≠ "")
    (he : pyEval ("range(" ++ s ++ ")") = Except.ok r)
    (ho : args.output = some root) :
    ∀ a ∈ lensCalls (run env pyInt pyEval args).1,
      a.command = args.command ∧ a.sweep = args.sweep ∧
        a.rest = args.rest := by
  intro a ha
  rw [lensCalls_run_sweep env pyInt pyEval args c s r root h hc hs hne he ho]
    at ha
  rcases List.mem_map.mp ha with ⟨step, _, hEq⟩
  subst hEq
  exact ⟨rfl, rfl, rfl⟩

/-- C7: when a truthy `--sweep` is given, the raw sweep string is spliced
unsanitized into a `range(...)` expression and handed to `eval` — the trace
contains exactly that eval call — and the dispatcher is partial in the
string: whenever `eval` raises, the run terminates with that exception and
`lens_main` is never called. -/
theorem sweep_eval_unsanitized_and_partial {ρ : Type} (env : Option String)
    (pyInt : String → Option Int)
    (pyEval : String → Except String (List Int)) (args : Args ρ)
    (c s : String) (h : envIntOk env pyInt) (hc : args.command = some c)
    (hs : args.sweep = some s) (hne : s ≠ "") :
    Event.evalCall ("range(" ++ s ++ ")") ∈ (run env pyInt pyEval args).1
    ∧ (∀ msg, pyEval ("range(" ++ s ++ ")") = Except.error msg →
        (run env pyInt pyEval args).2 = Outcome.evalExc msg
        ∧ lensCalls (run env pyInt pyEval args).1 = []) := by
  have hb := runBlock_sweep_eq (stdoutSuppressed env pyInt) pyEval args c s
    hc hs hne
  constructor
  · rw [run_fst env pyInt pyEval args h, hb]
    apply List.mem_append_right
    unfold sweepBranch
    rcases he : pyEval ("range(" ++ s ++ ")") with msg | r
    · simp [he]
    · rcases ho : args.output with _ | root <;> simp [he, ho]
  · intro msg hmsg
    constructor
    · rw [run_snd env pyInt pyEval args h, hb]
      unfold sweepBranch
      simp only [hmsg]
    · rw [run_fst env pyInt pyEval args h, lensCalls_append,
        lensCalls_initPrefix, List.nil_append, hb]
      unfold sweepBranch
      simp only [hmsg]
      rfl

/-- C8: when a truthy `--sweep` is given, the range evaluates, but no
output directory was parsed, the run stops with the `AssertionError` of
`assert output_root is not None`, and `lens_main` is never called. -/
theorem sweep_missing_output_assertion_error {ρ : Type} (env : Option String)
    (pyInt : String → Option Int)
    (pyEval : String → Except String (List Int)) (args : Args ρ)
    (c s : String) (r : List Int)
    (h : envIntOk env pyInt) (hc : args.command = some c)
    (hs : args.sweep = some s) (hne : s ≠ "")
    (he : pyEval ("range(" ++ s ++ ")") = Except.ok r)
    (ho : args.output = none) :
    (run env pyInt pyEval args).2 = Outcome.assertionError
    ∧ lensCalls (run env pyInt pyEval args).1 = [] := by
  have hb := runBlock_sweep_eq (stdoutSuppressed env pyInt) pyEval args c s
    hc hs hne
  constructor
  · rw [run_snd env pyInt pyEval args h, hb]
    unfold sweepBranch
    simp only [he, ho]
  · rw [run_fst env pyInt pyEval args h, lensCalls_append,
      lensCalls_initPrefix, List.nil_append, hb]
    unfold sweepBranch
    simp only [he, ho]
    rfl

/-- C9: when no subcommand was given, the run prints the parser help,
exits with status code 1, and never calls `lens_main`. -/
theorem missing_command_prints_help_and_exits {ρ : Type} (env : Option String)
    (pyInt : String → Option Int)
    (pyEval : String → Except String (List Int)) (args : Args ρ)
    (h : envIntOk env pyInt) (hc : args.command = none) :
    (run env pyInt pyEval args).2 = Outcome.exited 1
    ∧ Event.printHelp ∈ (run env pyInt pyEval args).1
    ∧ lensCalls (run env pyInt pyEval args).1 = [] := by
  have hb : runBlock (stdoutSuppressed env pyInt) pyEval args =
      ([Event.printHelp], Outcome.exited 1) := by
    simp only [runBlock, hc]
  refine ⟨?_, ?_, ?_⟩
  · rw [run_snd env pyInt pyEval args h, hb]
  · rw [run_fst env pyInt pyEval args h, hb]
    exact List.mem_append_right _ (by simp)
  · rw [run_fst env pyInt pyEval args h, lensCalls_append,
      lensCalls_initPrefix, List.nil_append, hb]
    rfl

/-! ### Witnesses: each theorem above instantiated at a concrete input -/

/-- A sample namespace with no sweep option. -/
def argsNoSweep : Args Unit := { argsSample with sweep := none }

/-- A sample namespace whose sweep string is not a valid range argument. -/
def argsBadSweep : Args Unit := { argsSample with sweep := some "x" }

/-- A sample namespace with a sweep but no output directory. -/
def argsNoOutput : Args Unit := { argsSample with output := none }

/-- A sample namespace with no subcommand. -/
def argsNoCommand : Args Unit := { argsSample with command := none }

/-- Sweeping `"2"` over `range(2)` calls `lens_main` exactly for steps 0
and 1, with output and revision rewritten per step. -/
theorem sweep_invokes_lens_main_per_step_witness :
    lensCalls (run none pyIntSample pyEvalSample argsSample).1 =
      [stepArgs argsSample ⟨["out"]⟩ 0, stepArgs argsSample ⟨["out"]⟩ 1] := by
  have h := sweep_invokes_lens_main_per_step none pyIntSample pyEvalSample
    argsSample "train" "2" [0, 1] ⟨["out"]⟩ (fun _ hv => nomatch hv)
    rfl rfl (by decide) rfl rfl
  simpa using h

/-- With `LOCAL_RANK = "1"` stdout is suppressed, and the suppression flag
of a print in that run is forced accordingly. -/
theorem rank_zero_only_console_output_witness :
    stdoutSuppressed (some "1") pyIntSample = true ∧
    (false : Bool) = !(stdoutSuppressed (some "1") pyIntSample) := by
  constructor
  · exact ((rank_zero_only_console_output (some "1") pyIntSample pyEvalSample
      argsSample).2.2 "1" 1 rfl (by decide)).mpr (by decide)
  · exact (rank_zero_only_console_output (some "1") pyIntSample pyEvalSample
      argsSample).1 "Running sweep over 2 checkpoints." false (by decide)

/-- With `LOCAL_RANK = "0"` the run initializes the `"nccl"` process
group. -/
theorem init_process_group_iff_local_rank_witness :
    Event.initProcessGroup "nccl" ∈
      (run (some "0") pyIntSample pyEvalSample argsSample).1 :=
  ((init_process_group_iff_local_rank (some "0") pyIntSample pyEvalSample
    argsSample).1 "nccl").mpr ⟨rfl, by simp⟩

/-- The shared `--sweep` option is registered on all three subparsers. -/
theorem shared_options_registered_on_all_subcommands_witness :
    ({ name_or_flags := ["--sweep"], options := { type := some "str" } } : Arg)
        ∈ trainParserArgs [] ∧
    ({ name_or_flags := ["--sweep"], options := { type := some "str" } } : Arg)
        ∈ downstreamParserArgs [] ∧
    ({ name_or_flags := ["--sweep"], options := { type := some "str" } } : Arg)
        ∈ evalParserArgs [] :=
  shared_options_registered_on_all_subcommands [] [] []
    { name_or_flags := ["--sweep"], options := { type := some "str" } }
    (by decide)

/-- Without `--sweep`, `lens_main` is called exactly once, on the parsed
namespace itself. -/
theorem lens_main_sole_entry_point_amended_witness :
    lensCalls (run none pyIntSample pyEvalSample argsNoSweep).1 =
      [argsNoSweep] :=
  (lens_main_sole_entry_point_amended none pyIntSample pyEvalSample
    argsNoSweep "train" (fun _ hv => nomatch hv) rfl).1 rfl

/-- The namespace passed to `lens_main` at step 0 of the sweep agrees with
the parsed namespace on every field other than output and revision. -/
theorem sweep_varies_only_output_and_revision_witness :
    (stepArgs argsSample ⟨["out"]⟩ 0).sweep = argsSample.sweep ∧
    (stepArgs argsSample ⟨["out"]⟩ 0).rest = argsSample.rest := by
  have h := sweep_varies_only_output_and_revision none pyIntSample
    pyEvalSample argsSample "train" "2" [0, 1] ⟨["out"]⟩
    (fun _ hv => nomatch hv) rfl rfl (by decide) rfl rfl
    (stepArgs argsSample ⟨["out"]⟩ 0) (by decide)
  exact ⟨h.2.1, h.2.2⟩

/-- The sweep string `"x"` goes to `eval` verbatim inside `range(x)`; the
sample oracle raises on it, the run ends with that exception, and
`lens_main` is never called. -/
theorem sweep_eval_unsanitized_and_partial_witness :
    Event.evalCall "range(x)" ∈
      (run none pyIntSample pyEvalSample argsBadSweep).1
    ∧ (run none pyIntSample pyEvalSample argsBadSweep).2 =
        Outcome.evalExc "invalid range: range(x)"
    ∧ lensCalls (run none pyIntSample pyEvalSample argsBadSweep).1 = [] := by
  have h := sweep_eval_unsanitized_and_partial none pyIntSample pyEvalSample
    argsBadSweep "train" "x" (fun _ hv => nomatch hv) rfl rfl (by decide)
  have h2 := h.2 "invalid range: range(x)" rfl
  exact ⟨h.1, h2.1, h2.2⟩

/-- Sweeping with no output directory ends in the assertion error, with no
`lens_main` call. -/
theorem sweep_missing_output_assertion_error_witness :
    (run none pyIntSample pyEvalSample argsNoOutput).2 =
        Outcome.assertionError
    ∧ lensCalls (run none pyIntSample pyEvalSample argsNoOutput).1 = [] :=
  sweep_missing_output_assertion_error none pyIntSample pyEvalSample
    argsNoOutput "train" "2" [0, 1] (fun _ hv => nomatch hv) rfl rfl
    (by decide) rfl rfl

/-- With no subcommand the run prints help and exits with code 1. -/
theorem missing_command_prints_help_and_exits_witness :
    (run none pyIntSample pyEvalSample argsNoCommand).2 = Outcome.exited 1
    ∧ Event.printHelp ∈ (run none pyIntSample pyEvalSample argsNoCommand).1
    ∧ lensCalls (run none pyIntSample pyEvalSample argsNoCommand).1 = [] :=
  missing_command_prints_help_and_exits none pyIntSample pyEvalSample
    argsNoCommand (fun _ hv => nomatch hv) rfl

end TunedLensMain
